import Mathlib

/-!
Verification development for the cross-currency routing backend.

Shallow embedding of the routing engine: amounts are exact rationals (ℚ),
timestamps are integers (epoch milliseconds), the external key-value store is
an association list from string keys to values, and asynchronous methods are
modelled as sequential state transformers (one webhook / driver invocation at
a time).  JavaScript truthiness on numbers (`x || y`, `x ? a : b`) is modelled
explicitly: a numeric value is falsy exactly when it is 0, and a missing
(`undefined`) optional field is `Option.none`.
-/

namespace Routing

/-- Settlement metadata carried by an edge quote (`OTCQuote.settlementMeta`). -/
structure SettlementMeta where
  settlementDays : ℚ
  counterpartyRisk : ℚ
  supportsReservation : Bool
  deriving DecidableEq

/-- An edge quote from one venue for one directed token pair (`OTCQuote`). -/
structure OTCQuote where
  venueId : String
  fromToken : String
  toToken : String
  amountIn : ℚ
  amountOut : ℚ
  maxAmountIn : Option ℚ
  feeBps : Option ℚ
  expiry : ℤ
  lastUpdated : ℤ
  depositAddress : Option String
  settlementMeta : Option SettlementMeta
  deriving DecidableEq

/-- One step of a discovered route (`RouteStep`). -/
structure RouteStep where
  fromToken : String
  toToken : String
  venueId : String
  chainId : ℕ
  amountIn : ℚ
  amountOut : ℚ
  feeBps : ℚ
  estimatedDurationMs : ℕ
  deriving DecidableEq

/-- A discovered route (`RouteResult`). -/
structure RouteResult where
  steps : List RouteStep
  totalIn : ℚ
  totalOut : ℚ
  effectiveRate : ℚ
  totalFeesBps : ℚ
  confidence : ℚ
  timestamp : ℤ
  deriving DecidableEq

/-- `OtcRoutingService.computeOutput`: per-leg output.  `!quote.amountIn ||
quote.amountIn <= 0` is the falsy-or-nonpositive guard; `quote.feeBps ? a : b`
applies the fee only when `feeBps` is present and nonzero. -/
def computeOutput (amountIn : ℚ) (quote : OTCQuote) : ℚ :=
  if quote.amountIn = 0 then 0
  else if quote.amountIn ≤ 0 then 0
  else
    let rate := quote.amountOut / quote.amountIn
    let gross := amountIn * rate
    match quote.feeBps with
    | none => gross
    | some f => if f = 0 then gross else gross - gross * f / 10000

/-- `OtcRoutingService.toRouteStep`. -/
def toRouteStep (quote : OTCQuote) (amountIn amountOut : ℚ) : RouteStep :=
  { fromToken := quote.fromToken
    toToken := quote.toToken
    venueId := quote.venueId
    chainId := if quote.venueId.startsWith "dex:" then 101 else 0
    amountIn := amountIn
    amountOut := amountOut
    feeBps := quote.feeBps.getD 0
    estimatedDurationMs := if quote.venueId.startsWith "dex:" then 30000 else 0 }

/-- The three per-leg guards applied inside `getBestRoute`'s enumeration loops
(`continue` on: expired quote, `maxAmountIn` exceeded — with a falsy
`maxAmountIn` of 0 or absent skipping the bound — or non-positive output).
Returns the leg output when the quote passes. -/
def tryLeg (expiryGuard : ℤ) (amountIn : ℚ) (q : OTCQuote) : Option ℚ :=
  if q.expiry ≤ expiryGuard then none
  else if (match q.maxAmountIn with
           | none => false
           | some m => if m = 0 then false else decide (m < amountIn)) then none
  else
    let out := computeOutput amountIn q
    if out ≤ 0 then none else some out

/-- A 1-hop candidate from one direct quote (body of the `oneHopQuotes.forEach`
loop in `getBestRoute`). -/
def try1Hop (amountIn : ℚ) (expiryGuard : ℤ) (now : ℤ) (q : OTCQuote) :
    Option RouteResult :=
  (tryLeg expiryGuard amountIn q).map fun out =>
    { steps := [toRouteStep q amountIn out]
      totalIn := amountIn
      totalOut := out
      effectiveRate := out / amountIn
      totalFeesBps := q.feeBps.getD 0
      confidence := 1
      timestamp := now }

/-- A 2-hop candidate (body of the nested `leg1`/`leg2` loops). -/
def try2Hop (amountIn : ℚ) (expiryGuard : ℤ) (now : ℤ) (q1 q2 : OTCQuote) :
    Option RouteResult :=
  (tryLeg expiryGuard amountIn q1).bind fun midOut =>
    (tryLeg expiryGuard midOut q2).map fun finalOut =>
      { steps := [toRouteStep q1 amountIn midOut, toRouteStep q2 midOut finalOut]
        totalIn := amountIn
        totalOut := finalOut
        effectiveRate := finalOut / amountIn
        totalFeesBps := q1.feeBps.getD 0 + q2.feeBps.getD 0
        confidence := 1
        timestamp := now }

/-- A 3-hop candidate (body of the nested `leg1`/`leg2`/`leg3` loops). -/
def try3Hop (amountIn : ℚ) (expiryGuard : ℤ) (now : ℤ) (q1 q2 q3 : OTCQuote) :
    Option RouteResult :=
  (tryLeg expiryGuard amountIn q1).bind fun mid1Out =>
    (tryLeg expiryGuard mid1Out q2).bind fun mid2Out =>
      (tryLeg expiryGuard mid2Out q3).map fun finalOut =>
        { steps := [toRouteStep q1 amountIn mid1Out,
                    toRouteStep q2 mid1Out mid2Out,
                    toRouteStep q3 mid2Out finalOut]
          totalIn := amountIn
          totalOut := finalOut
          effectiveRate := finalOut / amountIn
          totalFeesBps := q1.feeBps.getD 0 + q2.feeBps.getD 0 + q3.feeBps.getD 0
          confidence := 1
          timestamp := now }

/-- `intermediates.length > 0 ? intermediates : ["USDC", "USDT", "EURC"]`. -/
def commonIntermediaries (intermediates : List String) : List String :=
  if intermediates.length > 0 then intermediates else ["USDC", "USDT", "EURC"]

/-- All 1-hop candidate routes successfully constructed in one call. -/
def oneHopCandidates (load : String → String → List OTCQuote) (amountIn : ℚ)
    (fromToken toToken : String) (expiryGuard now : ℤ) : List RouteResult :=
  (load fromToken toToken).filterMap (try1Hop amountIn expiryGuard now)

/-- All 2-hop candidate routes successfully constructed in one call. -/
def twoHopCandidates (load : String → String → List OTCQuote) (amountIn : ℚ)
    (fromToken toToken : String) (mids : List String) (expiryGuard now : ℤ) :
    List RouteResult :=
  (mids.filter fun mid => decide (mid ≠ fromToken) && decide (mid ≠ toToken)).flatMap
    fun mid =>
      (load fromToken mid).flatMap fun q1 =>
        (load mid toToken).filterMap fun q2 =>
          try2Hop amountIn expiryGuard now q1 q2

/-- All 3-hop candidate routes successfully constructed in one call (the
intermediary set is limited to its first two elements, as in the source). -/
def threeHopCandidates (load : String → String → List OTCQuote) (amountIn : ℚ)
    (fromToken toToken : String) (mids : List String) (expiryGuard now : ℤ) :
    List RouteResult :=
  let limited := mids.take 2
  limited.flatMap fun mid1 =>
    if mid1 = fromToken ∨ mid1 = toToken then []
    else
      limited.flatMap fun mid2 =>
        if mid2 = fromToken ∨ mid2 = toToken ∨ mid2 = mid1 then []
        else
          (load fromToken mid1).flatMap fun q1 =>
            (load mid1 mid2).flatMap fun q2 =>
              (load mid2 toToken).filterMap fun q3 =>
                try3Hop amountIn expiryGuard now q1 q2 q3

/-- Every candidate route constructed during one `getBestRoute` call, in the
order the source feeds them to `updateBest` (2-hop loops first, then 3-hop,
then the trailing 1-hop `forEach`). -/
def candidateRoutes (load : String → String → List OTCQuote) (amountIn : ℚ)
    (fromToken toToken : String) (mids : List String) (expiryGuard now : ℤ) :
    List RouteResult :=
  twoHopCandidates load amountIn fromToken toToken mids expiryGuard now ++
    threeHopCandidates load amountIn fromToken toToken mids expiryGuard now ++
    oneHopCandidates load amountIn fromToken toToken expiryGuard now

/-- `OtcRoutingService.updateBest`: keep the candidate only when its `totalOut`
strictly exceeds the best so far.  The source keeps the best in an instance
field reset to `null` at the top of each call; one sequential call is the fold
of this function from `none`. -/
def updateBest (best : Option RouteResult) (candidate : RouteResult) :
    Option RouteResult :=
  match best with
  | none => some candidate
  | some b => if b.totalOut < candidate.totalOut then some candidate else some b

/-- `OtcRoutingService.getBestRoute`, sequential model of one call.  `load a b`
stands for `loadQuotes(a, b)`, the parsed live quotes the store returns for the
pair during this call.  Returns the selected route (if any) and the
`consideredQuotes` count (all loaded quotes, including filtered ones). -/
def getBestRoute (load : String → String → List OTCQuote) (amountIn : ℚ)
    (fromToken toToken : String) (intermediates : List String)
    (minExpiryMs now : ℤ) : Option RouteResult × ℕ :=
  let expiryGuard := now + minExpiryMs
  let mids := commonIntermediaries intermediates
  let considered :=
    (load fromToken toToken).length +
      ((mids.filter fun mid =>
            decide (mid ≠ fromToken) && decide (mid ≠ toToken)).map fun mid =>
          (load fromToken mid).length + (load mid toToken).length).sum +
      ((mids.take 2).flatMap fun mid1 =>
          if mid1 = fromToken ∨ mid1 = toToken then []
          else
            (mids.take 2).flatMap fun mid2 =>
              if mid2 = fromToken ∨ mid2 = toToken ∨ mid2 = mid1 then []
              else
                [(load fromToken mid1).length + (load mid1 mid2).length +
                    (load mid2 toToken).length]).sum
  ((candidateRoutes load amountIn fromToken toToken mids expiryGuard now).foldl
      updateBest none,
    considered)

/-- Claim C4: for a quote with positive reference input `a₀`, output `b₀` and
optional fee `f` (missing treated as 0), the per-leg output for any input
`x > 0` is `x × (b₀ / a₀) × (1 − f / 10000)`. -/
theorem computeOutput_formula (x : ℚ) (q : OTCQuote) (ha : 0 < q.amountIn)
    (_hx : 0 < x) :
    computeOutput x q =
      x * (q.amountOut / q.amountIn) * (1 - q.feeBps.getD 0 / 10000) := by
  unfold computeOutput
  rw [if_neg (ne_of_gt ha), if_neg (not_le.mpr ha)]
  dsimp only
  cases hf : q.feeBps with
  | none => simp only [Option.getD_none]; ring
  | some f =>
    simp only [Option.getD_some]
    by_cases hf0 : f = 0
    · subst hf0; rw [if_pos rfl]; ring
    · rw [if_neg hf0]; ring

/-- The scenario-S1 quote of the specification (1000 USDC → 920 EUR, 30 bps). -/
def demoQuoteS1 : OTCQuote :=
  { venueId := "otc:x", fromToken := "USDC", toToken := "EUR",
    amountIn := 1000, amountOut := 920, maxAmountIn := none,
    feeBps := some 30, expiry := 100000, lastUpdated := 0,
    depositAddress := none, settlementMeta := none }

/-- Witness for C4 at the scenario-S1 quote: output of 1000 is
`1000 × (920/1000) × (1 − 30/10000) = 917.24`. -/
theorem computeOutput_formula_witness :
    computeOutput 1000 demoQuoteS1 =
      1000 * (demoQuoteS1.amountOut / demoQuoteS1.amountIn) *
        (1 - demoQuoteS1.feeBps.getD 0 / 10000) :=
  computeOutput_formula 1000 demoQuoteS1 (by norm_num [demoQuoteS1]) (by norm_num)

/-- Folding `updateBest` yields a route at least as good as the accumulator and
every list element. -/
theorem foldl_updateBest_ge (l : List RouteResult) (acc : Option RouteResult)
    (r : RouteResult) (h : l.foldl updateBest acc = some r) :
    (∀ c ∈ l, c.totalOut ≤ r.totalOut) ∧
      (∀ b, acc = some b → b.totalOut ≤ r.totalOut) := by
  induction l generalizing acc with
  | nil =>
    refine ⟨fun c hc => absurd hc (List.not_mem_nil c), fun b hb => ?_⟩
    simp only [List.foldl_nil] at h
    rw [hb] at h
    exact le_of_eq (congrArg RouteResult.totalOut (Option.some.inj h))
  | cons x xs ih =>
    simp only [List.foldl_cons] at h
    obtain ⟨hxs, hacc⟩ := ih (updateBest acc x) h
    have hx : x.totalOut ≤ r.totalOut := by
      cases acc with
      | none => exact hacc x rfl
      | some a =>
        by_cases hlt : a.totalOut < x.totalOut
        · exact hacc x (by simp [updateBest, hlt])
        · exact le_trans (not_lt.mp hlt) (hacc a (by simp [updateBest, hlt]))
    refine ⟨fun c hc => ?_, fun b hb => ?_⟩
    · rcases List.mem_cons.mp hc with h1 | h2
      · exact h1 ▸ hx
      · exact hxs c h2
    · cases acc with
      | none => simp at hb
      | some a =>
        obtain rfl : a = b := Option.some.inj hb
        by_cases hlt : a.totalOut < x.totalOut
        · exact le_trans (le_of_lt hlt) hx
        · exact hacc a (by simp [updateBest, hlt])

/-- Folding `updateBest` returns either the accumulator or a list element. -/
theorem foldl_updateBest_mem (l : List RouteResult) (acc : Option RouteResult)
    (r : RouteResult) (h : l.foldl updateBest acc = some r) :
    r ∈ l ∨ acc = some r := by
  induction l generalizing acc with
  | nil => exact Or.inr h
  | cons x xs ih =>
    simp only [List.foldl_cons] at h
    rcases ih (updateBest acc x) h with hmem | hacc
    · exact Or.inl (List.mem_cons_of_mem x hmem)
    · cases acc with
      | none =>
        simp only [updateBest] at hacc
        exact Or.inl (Option.some.inj hacc ▸ List.mem_cons_self x xs)
      | some a =>
        by_cases hlt : a.totalOut < x.totalOut
        · simp only [updateBest, if_pos hlt] at hacc
          exact Or.inl (Option.some.inj hacc ▸ List.mem_cons_self x xs)
        · simp only [updateBest, if_neg hlt] at hacc
          exact Or.inr hacc

/-- Claim C3: the route returned by `getBestRoute` has `totalOut` at least
that of every candidate route the enumeration successfully constructed in that
call (across the 1-hop, 2-hop and 3-hop searches). -/
theorem getBestRoute_optimal (load : String → String → List OTCQuote)
    (amountIn : ℚ) (fromToken toToken : String) (intermediates : List String)
    (minExpiryMs now : ℤ) (r : RouteResult)
    (h : (getBestRoute load amountIn fromToken toToken intermediates minExpiryMs
            now).1 = some r) :
    ∀ c ∈ candidateRoutes load amountIn fromToken toToken
        (commonIntermediaries intermediates) (now + minExpiryMs) now,
      c.totalOut ≤ r.totalOut := by
  have := foldl_updateBest_ge
    (candidateRoutes load amountIn fromToken toToken
      (commonIntermediaries intermediates) (now + minExpiryMs) now) none r h
  exact this.1

/-- Demo cache for witnesses: two direct BRL→EUR quotes, outputs 900 and 880. -/
def demoQuoteA : OTCQuote :=
  { venueId := "otc:a", fromToken := "BRL", toToken := "EUR",
    amountIn := 1000, amountOut := 900, maxAmountIn := none, feeBps := none,
    expiry := 100000, lastUpdated := 0, depositAddress := none,
    settlementMeta := none }

def demoQuoteB : OTCQuote :=
  { venueId := "otc:b", fromToken := "BRL", toToken := "EUR",
    amountIn := 1000, amountOut := 880, maxAmountIn := none, feeBps := none,
    expiry := 100000, lastUpdated := 0, depositAddress := none,
    settlementMeta := none }

def demoLoad (a b : String) : List OTCQuote :=
  if a = "BRL" ∧ b = "EUR" then [demoQuoteA, demoQuoteB] else []

/-- The 1-hop route built from `demoQuoteA` (the best candidate). -/
def demoRouteA : RouteResult :=
  { steps := [toRouteStep demoQuoteA 1000 900], totalIn := 1000,
    totalOut := 900, effectiveRate := 900 / 1000, totalFeesBps := 0,
    confidence := 1, timestamp := 0 }

/-- The 1-hop route built from `demoQuoteB` (the inferior candidate). -/
def demoRouteB : RouteResult :=
  { steps := [toRouteStep demoQuoteB 1000 880], totalIn := 1000,
    totalOut := 880, effectiveRate := 880 / 1000, totalFeesBps := 0,
    confidence := 1, timestamp := 0 }

set_option maxRecDepth 4000 in
/-- Witness for C3: on the demo cache the router returns the 900-output route
and the 880-output candidate is indeed dominated. -/
theorem getBestRoute_optimal_witness : demoRouteB.totalOut ≤ demoRouteA.totalOut :=
  getBestRoute_optimal demoLoad 1000 "BRL" "EUR" [] 0 0 demoRouteA
    (by with_unfolding_all rfl)
    demoRouteB (of_decide_eq_true (by with_unfolding_all rfl))

/-- Adjacency/terminal check along a route's steps: consecutive steps hand the
token and the amount over, and the final step ends at `toToken`. -/
def linkOK : RouteStep → List RouteStep → String → Bool
  | s, [], toToken => decide (s.toToken = toToken)
  | s, s2 :: rest, toToken =>
      decide (s.toToken = s2.fromToken) && decide (s2.amountIn = s.amountOut) &&
        linkOK s2 rest toToken

/-- The claim-C5 well-formedness of a step list: non-empty, starts at
`fromToken`, ends at `toToken`, and adjacent steps agree on token and amount. -/
def wellFormedChain (fromToken toToken : String) (steps : List RouteStep) : Bool :=
  match steps with
  | [] => false
  | s :: rest => decide (s.fromToken = fromToken) && linkOK s rest toToken

/-- The store returns, for a pair `(a, b)`, only quotes whose own token fields
are `(a, b)`.  This holds for every entry written through
`cacheQuote`/`cacheQuotes`, which derive the key from the quote's fields. -/
def CacheConsistent (load : String → String → List OTCQuote) : Prop :=
  ∀ a b : String, ∀ q ∈ load a b, q.fromToken = a ∧ q.toToken = b

theorem try1Hop_steps (amountIn : ℚ) (g now : ℤ) (q : OTCQuote)
    (r : RouteResult) (h : try1Hop amountIn g now q = some r) :
    ∃ out, r.steps = [toRouteStep q amountIn out] := by
  unfold try1Hop at h
  rcases Option.map_eq_some'.mp h with ⟨out, _, rfl⟩
  exact ⟨out, rfl⟩

theorem try2Hop_steps (amountIn : ℚ) (g now : ℤ) (q1 q2 : OTCQuote)
    (r : RouteResult) (h : try2Hop amountIn g now q1 q2 = some r) :
    ∃ m f, r.steps = [toRouteStep q1 amountIn m, toRouteStep q2 m f] := by
  unfold try2Hop at h
  rcases Option.bind_eq_some.mp h with ⟨m, _, h2⟩
  rcases Option.map_eq_some'.mp h2 with ⟨f, _, rfl⟩
  exact ⟨m, f, rfl⟩

theorem try3Hop_steps (amountIn : ℚ) (g now : ℤ) (q1 q2 q3 : OTCQuote)
    (r : RouteResult) (h : try3Hop amountIn g now q1 q2 q3 = some r) :
    ∃ m1 m2 f, r.steps = [toRouteStep q1 amountIn m1, toRouteStep q2 m1 m2,
      toRouteStep q3 m2 f] := by
  unfold try3Hop at h
  rcases Option.bind_eq_some.mp h with ⟨m1, _, h2⟩
  rcases Option.bind_eq_some.mp h2 with ⟨m2, _, h3⟩
  rcases Option.map_eq_some'.mp h3 with ⟨f, _, rfl⟩
  exact ⟨m1, m2, f, rfl⟩

/-- Claim C5: over a consistent cache, every route returned by `getBestRoute`
is a well-formed chain from the requested `fromToken` to the requested
`toToken` with matching hand-over amounts. -/
theorem getBestRoute_wellFormed (load : String → String → List OTCQuote)
    (amountIn : ℚ) (fromToken toToken : String) (intermediates : List String)
    (minExpiryMs now : ℤ) (r : RouteResult) (hc : CacheConsistent load)
    (h : (getBestRoute load amountIn fromToken toToken intermediates minExpiryMs
            now).1 = some r) :
    wellFormedChain fromToken toToken r.steps = true := by
  have hmem : r ∈ candidateRoutes load amountIn fromToken toToken
      (commonIntermediaries intermediates) (now + minExpiryMs) now := by
    rcases foldl_updateBest_mem _ none r h with hm | habs
    · exact hm
    · exact absurd habs (by simp)
  rcases List.mem_append.mp hmem with h12 | h1
  · rcases List.mem_append.mp h12 with h2 | h3
    · -- 2-hop candidate
      rcases List.mem_flatMap.mp h2 with ⟨mid, _, hmid⟩
      rcases List.mem_flatMap.mp hmid with ⟨q1, hq1, hq1m⟩
      rcases List.mem_filterMap.mp hq1m with ⟨q2, hq2, heq⟩
      obtain ⟨m, f, hsteps⟩ := try2Hop_steps _ _ _ _ _ _ heq
      obtain ⟨h1f, h1t⟩ := hc fromToken mid q1 hq1
      obtain ⟨h2f, h2t⟩ := hc mid toToken q2 hq2
      rw [hsteps]
      simp [wellFormedChain, linkOK, toRouteStep, h1f, h1t, h2f, h2t]
    · -- 3-hop candidate
      rcases List.mem_flatMap.mp h3 with ⟨mid1, _, hm1⟩
      by_cases hc1 : mid1 = fromToken ∨ mid1 = toToken
      · rw [if_pos hc1] at hm1; exact absurd hm1 (List.not_mem_nil r)
      rw [if_neg hc1] at hm1
      rcases List.mem_flatMap.mp hm1 with ⟨mid2, _, hm2⟩
      by_cases hc2 : mid2 = fromToken ∨ mid2 = toToken ∨ mid2 = mid1
      · rw [if_pos hc2] at hm2; exact absurd hm2 (List.not_mem_nil r)
      rw [if_neg hc2] at hm2
      rcases List.mem_flatMap.mp hm2 with ⟨q1, hq1, hq1m⟩
      rcases List.mem_flatMap.mp hq1m with ⟨q2, hq2, hq2m⟩
      rcases List.mem_filterMap.mp hq2m with ⟨q3, hq3, heq⟩
      obtain ⟨m1, m2, f, hsteps⟩ := try3Hop_steps _ _ _ _ _ _ _ heq
      obtain ⟨h1f, h1t⟩ := hc fromToken mid1 q1 hq1
      obtain ⟨h2f, h2t⟩ := hc mid1 mid2 q2 hq2
      obtain ⟨h3f, h3t⟩ := hc mid2 toToken q3 hq3
      rw [hsteps]
      simp [wellFormedChain, linkOK, toRouteStep, h1f, h1t, h2f, h2t, h3f, h3t]
  · -- 1-hop candidate
    rcases List.mem_filterMap.mp h1 with ⟨q, hq, heq⟩
    obtain ⟨out, hsteps⟩ := try1Hop_steps _ _ _ _ _ heq
    obtain ⟨hf, ht⟩ := hc fromToken toToken q hq
    rw [hsteps]
    simp [wellFormedChain, linkOK, toRouteStep, hf, ht]

/-- The demo cache is consistent. -/
theorem demoLoad_consistent : CacheConsistent demoLoad := by
  intro a b q hq
  unfold demoLoad at hq
  split at hq
  · next hab =>
    obtain ⟨rfl, rfl⟩ := hab
    rcases List.mem_cons.mp hq with rfl | hq
    · exact ⟨rfl, rfl⟩
    · rcases List.mem_cons.mp hq with rfl | hq
      · exact ⟨rfl, rfl⟩
      · exact absurd hq (List.not_mem_nil q)
  · exact absurd hq (List.not_mem_nil q)

/-- Witness for C5: the route returned on the demo cache passes the chain
check from BRL to EUR. -/
theorem getBestRoute_wellFormed_witness :
    wellFormedChain "BRL" "EUR" demoRouteA.steps = true :=
  getBestRoute_wellFormed demoLoad 1000 "BRL" "EUR" [] 0 0 demoRouteA
    demoLoad_consistent (by with_unfolding_all rfl)

/-- JavaScript `a || b` on numbers: `b` when `a` is falsy (i.e. 0), else `a`. -/
def jsOr (a b : ℚ) : ℚ := if a = 0 then b else a

/-- `q.settlementMeta?.settlementDays || 0`. -/
def effSettlementDays (q : OTCQuote) : ℚ :=
  match q.settlementMeta with
  | none => 0
  | some m => jsOr m.settlementDays 0

/-- `SettlementScoringService.counterpartyRisk` venue table; an unknown venue
yields the falsy `undefined`, modelled as 0 so the `||` chain proceeds. -/
def counterpartyRiskTable (venueId : String) : ℚ :=
  if venueId = "otc:brl-eur:provider1" then 1 / 1000
  else if venueId = "otc:mxn-usd:provider1" then 1 / 1000
  else if venueId = "otc:ngn-eur:provider1" then 2 / 1000
  else if venueId = "otc:stablecoin:provider1" then 5 / 10000
  else 0

/-- `q.settlementMeta?.counterpartyRisk || counterpartyRisk[q.venueId] || 0.001`. -/
def effCounterpartyRisk (q : OTCQuote) : ℚ :=
  jsOr (jsOr ((q.settlementMeta.map SettlementMeta.counterpartyRisk).getD 0)
      (counterpartyRiskTable q.venueId)) (1 / 1000)

/-- `SettlementScoringService.getAverageCounterpartyRisk`. -/
def getAverageCounterpartyRisk (quotes : List OTCQuote) : ℚ :=
  match quotes with
  | [] => 1 / 1000
  | _ => (quotes.map effCounterpartyRisk).sum / (quotes.length : ℚ)

/-- `SettlementScoringService.volatilityParams`; unknown pairs yield the falsy
`undefined`, modelled as 0 so `|| 0.005` applies. -/
def volatilityParams (pair : String) : ℚ :=
  if pair = "BRL/EUR" then 5 / 1000
  else if pair = "MXN/USD" then 4 / 1000
  else if pair = "NGN/EUR" then 8 / 1000
  else 0

/-- `SettlementScoringService.getVolatilityForRoute`. -/
def getVolatilityForRoute (route : RouteResult) : ℚ :=
  match route.steps with
  | [] => 5 / 1000
  | s :: rest =>
    let pair := s.fromToken ++ "/" ++ (((s :: rest).getLast?).getD s).toToken
    jsOr (volatilityParams pair) (5 / 1000)

/-- JavaScript `Math.max(...l)`: `none` models `-Infinity` on an empty list. -/
def jsMathMax (l : List ℚ) : Option ℚ :=
  match l with
  | [] => none
  | x :: xs => some (xs.foldl max x)

/-- `SettlementScoringService.calculateTimePenalty`.  The `sq` parameter is
the injected `Math.sqrt`. -/
def calculateTimePenalty (sq : ℚ → ℚ) (quotedAmount settlementDays
    dailyVolatility : ℚ) : ℚ :=
  if settlementDays ≤ 0 then 0
  else
    let riskFactor : ℚ := 1
    quotedAmount * dailyVolatility * sq settlementDays * riskFactor

/-- `SettlementScoringService.calculateNetOutput`.  On an empty quote list
`Math.max()` is `-Infinity`, making the `settlementDays <= 0` branch of the
time penalty fire. -/
def calculateNetOutput (sq : ℚ → ℚ) (quotedOutput : ℚ) (route : RouteResult)
    (quotes : List OTCQuote) : ℚ :=
  let maxSettlementDays := jsMathMax (quotes.map effSettlementDays)
  let avgCounterpartyRisk := getAverageCounterpartyRisk quotes
  let volatility := getVolatilityForRoute route
  let timePenalty :=
    match maxSettlementDays with
    | none => 0
    | some d => calculateTimePenalty sq quotedOutput d volatility
  let counterpartyDiscount := quotedOutput * avgCounterpartyRisk
  max 0 (quotedOutput - timePenalty - counterpartyDiscount)

/-- Scoring metadata record (`getScoringMetadata`'s result shape). -/
structure ScoringMeta where
  settlementDays : ℚ
  counterpartyRisk : ℚ
  timePenalty : ℚ
  confidence : ℚ
  deriving DecidableEq

/-- `SettlementScoringService.getScoringMetadata` (note the extra `, 0` in its
`Math.max`, so the empty-quote case yields 0 rather than `-Infinity`). -/
def getScoringMetadata (sq : ℚ → ℚ) (route : RouteResult)
    (quotes : List OTCQuote) : ScoringMeta :=
  let maxSettlementDays := (quotes.map effSettlementDays).foldl max 0
  let avgCounterpartyRisk := getAverageCounterpartyRisk quotes
  let volatility := getVolatilityForRoute route
  let timePenalty := calculateTimePenalty sq route.totalOut maxSettlementDays
    volatility
  let confidence :=
    max 0 (min 1 (1 - maxSettlementDays * (1 / 10) - avgCounterpartyRisk * 10))
  { settlementDays := maxSettlementDays
    counterpartyRisk := avgCounterpartyRisk
    timePenalty := timePenalty
    confidence := max (1 / 2) confidence }

/-- The claim's `maxSettlementDays`: maximum of the per-quote effective
settlement days (0 for a quote without settlement metadata). -/
def maxSettlementDaysSpec (quotes : List OTCQuote) : ℚ :=
  match quotes.map effSettlementDays with
  | [] => 0
  | d :: ds => ds.foldl max d

theorem le_foldl_max (x : ℚ) (xs : List ℚ) : x ≤ xs.foldl max x := by
  induction xs generalizing x with
  | nil => exact le_refl x
  | cons y ys ih => exact le_trans (le_max_left x y) (ih (max x y))

theorem getVolatilityForRoute_nonneg (route : RouteResult) :
    0 ≤ getVolatilityForRoute route := by
  unfold getVolatilityForRoute
  split
  · norm_num
  · dsimp only
    unfold jsOr volatilityParams
    split_ifs <;> norm_num

theorem getAverageCounterpartyRisk_nonneg (quotes : List OTCQuote)
    (h : ∀ q ∈ quotes, 0 ≤ effCounterpartyRisk q) :
    0 ≤ getAverageCounterpartyRisk quotes := by
  unfold getAverageCounterpartyRisk
  cases quotes with
  | nil => norm_num
  | cons x xs =>
    apply div_nonneg
    · apply List.sum_nonneg
      intro a ha
      rcases List.mem_map.mp ha with ⟨q, hq, rfl⟩
      exact h q hq
    · exact Nat.cast_nonneg _

/-- Claim C6: for a non-empty participating quote set the scorer's net output
is `max (0, gross − gross · vol · √maxDays − gross · avgRisk)` (with the
source's `√` injected as `sq`), and the net output never exceeds the gross
output when the risk inputs are non-negative. -/
theorem calculateNetOutput_spec (sq : ℚ → ℚ) (gross : ℚ) (route : RouteResult)
    (quotes : List OTCQuote) (hne : quotes ≠ [])
    (hsq0 : sq 0 = 0) (hsqpos : ∀ x : ℚ, 0 ≤ x → 0 ≤ sq x)
    (hdays : ∀ q ∈ quotes, 0 ≤ effSettlementDays q)
    (hrisk : ∀ q ∈ quotes, 0 ≤ effCounterpartyRisk q)
    (hgross : 0 ≤ gross) :
    calculateNetOutput sq gross route quotes =
      max 0 (gross - gross * getVolatilityForRoute route *
          sq (maxSettlementDaysSpec quotes) -
        gross * getAverageCounterpartyRisk quotes) ∧
      calculateNetOutput sq gross route quotes ≤ gross := by
  cases quotes with
  | nil => exact absurd rfl hne
  | cons q0 qs =>
    have hM : maxSettlementDaysSpec (q0 :: qs) =
        (qs.map effSettlementDays).foldl max (effSettlementDays q0) := rfl
    have hM0 : 0 ≤ maxSettlementDaysSpec (q0 :: qs) := by
      rw [hM]
      exact le_trans (hdays q0 (List.mem_cons_self q0 qs))
        (le_foldl_max _ _)
    have havg : 0 ≤ getAverageCounterpartyRisk (q0 :: qs) :=
      getAverageCounterpartyRisk_nonneg _ hrisk
    have hvol : 0 ≤ getVolatilityForRoute route :=
      getVolatilityForRoute_nonneg route
    have hform : calculateNetOutput sq gross route (q0 :: qs) =
        max 0 (gross - gross * getVolatilityForRoute route *
            sq (maxSettlementDaysSpec (q0 :: qs)) -
          gross * getAverageCounterpartyRisk (q0 :: qs)) := by
      unfold calculateNetOutput jsMathMax calculateTimePenalty
      simp only [List.map_cons]
      rw [← hM]
      by_cases hle : maxSettlementDaysSpec (q0 :: qs) ≤ 0
      · have heq0 : maxSettlementDaysSpec (q0 :: qs) = 0 := le_antisymm hle hM0
        rw [if_pos (heq0 ▸ le_refl (0 : ℚ))]
        rw [heq0, hsq0, mul_zero, sub_zero]
      · rw [if_neg hle]
        ring_nf
    refine ⟨hform, ?_⟩
    rw [hform]
    have htp : 0 ≤ gross * getVolatilityForRoute route *
        sq (maxSettlementDaysSpec (q0 :: qs)) :=
      mul_nonneg (mul_nonneg hgross hvol) (hsqpos _ hM0)
    have hcd : 0 ≤ gross * getAverageCounterpartyRisk (q0 :: qs) :=
      mul_nonneg hgross havg
    apply max_le hgross
    calc gross - gross * getVolatilityForRoute route *
          sq (maxSettlementDaysSpec (q0 :: qs)) -
        gross * getAverageCounterpartyRisk (q0 :: qs)
        ≤ gross - gross * getVolatilityForRoute route *
            sq (maxSettlementDaysSpec (q0 :: qs)) := by linarith
      _ ≤ gross := by linarith

/-- An injected square root for the witness (only its values at the witness
inputs matter): 2 at 4, 0 elsewhere. -/
def demoSqrt (x : ℚ) : ℚ := if x = 4 then 2 else 0

/-- Settlement metadata for the C6 witness quote. -/
def demoMeta : SettlementMeta :=
  { settlementDays := 4, counterpartyRisk := 1 / 100,
    supportsReservation := true }

/-- A quote with 4 settlement days and 1% counterparty risk. -/
def demoScoreQuote : OTCQuote :=
  { venueId := "otc:x", fromToken := "BRL", toToken := "EUR",
    amountIn := 1000, amountOut := 900, maxAmountIn := none, feeBps := none,
    expiry := 100000, lastUpdated := 0, depositAddress := none,
    settlementMeta := some demoMeta }

/-- Witness for C6 at gross 900 over the demo BRL→EUR route and one quote
with 4 settlement days and 1% counterparty risk. -/
theorem calculateNetOutput_spec_witness :
    calculateNetOutput demoSqrt 900 demoRouteA [demoScoreQuote] =
      max 0 (900 - 900 * getVolatilityForRoute demoRouteA *
          demoSqrt (maxSettlementDaysSpec [demoScoreQuote]) -
        900 * getAverageCounterpartyRisk [demoScoreQuote]) ∧
      calculateNetOutput demoSqrt 900 demoRouteA [demoScoreQuote] ≤ 900 :=
  calculateNetOutput_spec demoSqrt 900 demoRouteA [demoScoreQuote]
    (by simp)
    (by unfold demoSqrt; norm_num)
    (by intro x hx; unfold demoSqrt; split_ifs <;> norm_num)
    (of_decide_eq_true (by with_unfolding_all rfl))
    (of_decide_eq_true (by with_unfolding_all rfl))
    (by norm_num)

/-! ### Key-value store model

The external store is an association list from string keys to values; `SET`
prepends after erasing the key, `GET` takes the first binding, `DEL` erases.
TTLs are not modelled: expiry checks that matter to the claims are performed
explicitly by the services against the injected clock, as in the source. -/

def kvGet {α : Type} (store : List (String × α)) (k : String) : Option α :=
  (store.find? fun p => p.1 == k).map Prod.snd

def kvSet {α : Type} (store : List (String × α)) (k : String) (v : α) :
    List (String × α) :=
  (k, v) :: store.filter fun p => p.1 != k

def kvDel {α : Type} (store : List (String × α)) (k : String) :
    List (String × α) :=
  store.filter fun p => p.1 != k

theorem kvGet_none {α : Type} (store : List (String × α)) (k : String)
    (h : ∀ p ∈ store, p.1 ≠ k) : kvGet store k = none := by
  unfold kvGet
  induction store with
  | nil => rfl
  | cons p ps ih =>
    have hp : p.1 ≠ k := h p (List.mem_cons_self p ps)
    simp only [List.find?]
    rw [show (p.1 == k) = false from beq_eq_false_iff_ne.mpr hp]
    exact ih fun q hq => h q (List.mem_cons_of_mem p hq)

theorem kvGet_kvDel {α : Type} (store : List (String × α)) (k : String) :
    kvGet (kvDel store k) k = none := by
  apply kvGet_none
  intro p hp
  have hmem := List.mem_filter.mp hp
  intro hk
  simp [bne, hk] at hmem

/-- `RedisKey.provisionalQuote`. -/
def provisionalQuoteKey (quoteId : String) : String := "quote:prov:" ++ quoteId

/-- `RedisKey.reservedQuote`. -/
def reservedQuoteKey (quoteId : String) : String := "quote:reserved:" ++ quoteId

/-- `RedisKey.deposit`. -/
def depositKey (depositId : String) : String := "deposit:" ++ depositId

/-- The `deposit:ref:` index key. -/
def depositRefKey (paymentReference : String) : String :=
  "deposit:ref:" ++ paymentReference

/-- The `exec:` record key. -/
def execKey (executionId : String) : String := "exec:" ++ executionId

/-- The `execution:quote:` index key. -/
def executionQuoteKey (quoteId : String) : String :=
  "execution:quote:" ++ quoteId

/-! ### Quote lifecycle (provisional → reserved) -/

inductive QuoteType
  | OTC
  | DEX
  | OTCplusDEX
  deriving DecidableEq

/-- `ProvisionalQuote` of `quote-lifecycle.ts`. -/
structure ProvisionalQuote where
  quoteId : String
  route : Option RouteResult
  amountIn : ℚ
  amountOut : ℚ
  netAmountOut : ℚ
  feeBps : ℚ
  expiryTs : ℤ
  createdTs : ℤ
  scoringMeta : ScoringMeta
  type : QuoteType
  deriving DecidableEq

structure OtcReservationMeta where
  otcReservationId : Option String
  depositAddress : Option String
  deriving DecidableEq

/-- `ReservedQuote extends ProvisionalQuote`. -/
structure ReservedQuote extends ProvisionalQuote where
  reservationId : String
  reservedByClient : String
  reservedUntilTs : ℤ
  otcReservationMeta : Option OtcReservationMeta
  deriving DecidableEq

/-- The slice of the store owned by `QuoteLifecycleService`. -/
structure QuoteLifecycleState where
  provisionalStore : List (String × ProvisionalQuote)
  reservedStore : List (String × ReservedQuote)
  deriving DecidableEq

def RESERVED_TTL_SEC : ℤ := 300

/-- `QuoteLifecycleService.getProvisionalQuote`: absent key or
`now ≥ expiryTs` yields `null`. -/
def getProvisionalQuote (s : QuoteLifecycleState) (now : ℤ) (quoteId : String) :
    Option ProvisionalQuote :=
  match kvGet s.provisionalStore (provisionalQuoteKey quoteId) with
  | none => none
  | some quote => if quote.expiryTs ≤ now then none else some quote

/-- `QuoteLifecycleService.reserveQuote`: fetch the provisional (NotFound when
absent/expired), write the reserved key, then delete the provisional key.
`reservationUuid` stands for the fresh `uuidv4()`. -/
def reserveQuote (s : QuoteLifecycleState) (now : ℤ) (quoteId clientId : String)
    (reservationUuid : String) (otcReservationMeta : Option OtcReservationMeta) :
    Except String (ReservedQuote × QuoteLifecycleState) :=
  match getProvisionalQuote s now quoteId with
  | none => .error "NotFound"
  | some provisional =>
    let reservationId := "reservation:" ++ reservationUuid
    let reservedUntilTs := now + RESERVED_TTL_SEC * 1000
    let reserved : ReservedQuote :=
      { toProvisionalQuote := provisional
        reservationId := reservationId
        reservedByClient := clientId
        reservedUntilTs := reservedUntilTs
        otcReservationMeta := otcReservationMeta }
    let s1 := { s with
      reservedStore := kvSet s.reservedStore (reservedQuoteKey quoteId) reserved }
    let s2 := { s1 with
      provisionalStore := kvDel s1.provisionalStore (provisionalQuoteKey quoteId) }
    .ok (reserved, s2)

/-- `QuoteLifecycleService.getReservedQuote`: expired records are deleted and
reported absent. -/
def getReservedQuote (s : QuoteLifecycleState) (now : ℤ) (quoteId : String) :
    Option ReservedQuote × QuoteLifecycleState :=
  match kvGet s.reservedStore (reservedQuoteKey quoteId) with
  | none => (none, s)
  | some quote =>
    if quote.reservedUntilTs ≤ now then
      (none, { s with
        reservedStore := kvDel s.reservedStore (reservedQuoteKey quoteId) })
    else (some quote, s)

/-- Claim C7: whenever `reserveQuote` succeeds, the provisional quote is
absent from the resulting state — the reserved record was written first and
the provisional key deleted afterwards. -/
theorem reserveQuote_removes_provisional (s : QuoteLifecycleState) (now : ℤ)
    (quoteId clientId reservationUuid : String)
    (meta : Option OtcReservationMeta) (r : ReservedQuote)
    (s2 : QuoteLifecycleState)
    (h : reserveQuote s now quoteId clientId reservationUuid meta = .ok (r, s2)) :
    getProvisionalQuote s2 now quoteId = none := by
  unfold reserveQuote at h
  cases hp : getProvisionalQuote s now quoteId with
  | none => rw [hp] at h; exact absurd h (by simp)
  | some provisional =>
    rw [hp] at h
    simp only [Except.ok.injEq, Prod.mk.injEq] at h
    obtain ⟨-, rfl⟩ := h
    unfold getProvisionalQuote
    rw [kvGet_kvDel]

/-- Demo data for the C7 witness. -/
def demoScoring : ScoringMeta :=
  { settlementDays := 0, counterpartyRisk := 1 / 1000, timePenalty := 0,
    confidence := 1 }

def demoProvisional : ProvisionalQuote :=
  { quoteId := "q1", route := none, amountIn := 1000, amountOut := 900,
    netAmountOut := 890, feeBps := 30, expiryTs := 15000, createdTs := 0,
    scoringMeta := demoScoring, type := QuoteType.OTC }

def demoLifecycleState : QuoteLifecycleState :=
  { provisionalStore := [(provisionalQuoteKey "q1", demoProvisional)],
    reservedStore := [] }

def demoReserved : ReservedQuote :=
  { toProvisionalQuote := demoProvisional, reservationId := "reservation:u1",
    reservedByClient := "c1", reservedUntilTs := 300000,
    otcReservationMeta := none }

def demoStateAfterReserve : QuoteLifecycleState :=
  { provisionalStore := [],
    reservedStore := [(reservedQuoteKey "q1", demoReserved)] }

/-- Witness for C7: reserving the demo provisional quote leaves
`getProvisionalQuote` returning `none` in the same operation window. -/
theorem reserveQuote_removes_provisional_witness :
    getProvisionalQuote demoStateAfterReserve 0 "q1" = none :=
  reserveQuote_removes_provisional demoLifecycleState 0 "q1" "c1" "u1" none
    demoReserved demoStateAfterReserve (by with_unfolding_all rfl)

/-! ### Deposit service -/

inductive DepositStatus
  | PENDING
  | CONFIRMED
  | FAILED
  | EXPIRED
  deriving DecidableEq

structure AccountDetails where
  bankName : Option String
  accountNumber : Option String
  pixKey : Option String
  iban : Option String
  routingNumber : Option String
  deriving DecidableEq

structure DepositInstructions where
  method : String
  accountDetails : AccountDetails
  amount : ℚ
  paymentReference : String
  qrCodeData : Option String
  depositExpiryTs : ℤ
  deriving DecidableEq

structure DepositRecord where
  depositId : String
  quoteId : String
  clientId : String
  amountExpected : ℚ
  amountReceived : Option ℚ
  depositInstructions : DepositInstructions
  status : DepositStatus
  receivedAt : Option ℤ
  bankTxId : Option String
  paymentReference : String
  deriving DecidableEq

/-- The slice of the store owned by `DepositService`: `deposit:{depositId}` →
record and `deposit:ref:{paymentReference}` → depositId. -/
structure DepositState where
  deposits : List (String × DepositRecord)
  depositRefs : List (String × String)
  deriving DecidableEq

/-- `DepositService.confirmDeposit`.  The returned `Bool` is the
amount-mismatch warning (`logger.warn` when the deviation exceeds the 0.1%
tolerance); it has no effect on the record or the result. -/
def confirmDeposit (s : DepositState) (now : ℤ) (paymentReference : String)
    (amountReceived : ℚ) (bankTxId : Option String) :
    Except String (DepositRecord × DepositState × Bool) :=
  match kvGet s.depositRefs (depositRefKey paymentReference) with
  | none => .error "NotFound"
  | some depositIdRaw =>
    match kvGet s.deposits (depositKey depositIdRaw) with
    | none => .error "NotFound"
    | some deposit =>
      let tolerance := deposit.amountExpected * (1 / 1000)
      let warned := decide (tolerance < |amountReceived - deposit.amountExpected|)
      let updated : DepositRecord :=
        { deposit with
          amountReceived := some amountReceived
          status := DepositStatus.CONFIRMED
          receivedAt := some now
          bankTxId := bankTxId }
      .ok (updated,
        { s with deposits := kvSet s.deposits (depositKey deposit.depositId) updated },
        warned)

/-- The confirmed copy of a deposit record, as `confirmDeposit` writes it. -/
def confirmedCopy (deposit : DepositRecord) (now : ℤ) (amountReceived : ℚ)
    (bankTxId : Option String) : DepositRecord :=
  { deposit with
    amountReceived := some amountReceived
    status := DepositStatus.CONFIRMED
    receivedAt := some now
    bankTxId := bankTxId }

/-- Claim C8: `confirmDeposit` never rejects on amount mismatch.  For every
received amount — however far from `amountExpected` — an existing deposit is
confirmed; the tolerance check only drives the warning flag. -/
theorem confirmDeposit_never_rejects (s : DepositState) (now : ℤ)
    (paymentReference : String) (amountReceived : ℚ) (bankTxId : Option String)
    (depositIdRaw : String) (deposit : DepositRecord)
    (href : kvGet s.depositRefs (depositRefKey paymentReference) = some depositIdRaw)
    (hdep : kvGet s.deposits (depositKey depositIdRaw) = some deposit) :
    confirmDeposit s now paymentReference amountReceived bankTxId =
      .ok (confirmedCopy deposit now amountReceived bankTxId,
        ⟨kvSet s.deposits (depositKey deposit.depositId)
          (confirmedCopy deposit now amountReceived bankTxId), s.depositRefs⟩,
        decide (deposit.amountExpected * (1 / 1000) <
          |amountReceived - deposit.amountExpected|)) := by
  unfold confirmDeposit confirmedCopy
  rw [href]
  simp only [hdep]

/-- Demo data for the C8 witness: a pending deposit expecting 100. -/
def demoAccountDetails : AccountDetails :=
  { bankName := none, accountNumber := none,
    pixKey := some "mock-pix-key@example.com", iban := none,
    routingNumber := none }

def demoInstructions : DepositInstructions :=
  { method := "PIX", accountDetails := demoAccountDetails, amount := 100,
    paymentReference := "ref1", qrCodeData := none, depositExpiryTs := 300000 }

def demoDeposit : DepositRecord :=
  { depositId := "deposit:d1", quoteId := "q1", clientId := "c1",
    amountExpected := 100, amountReceived := none,
    depositInstructions := demoInstructions, status := DepositStatus.PENDING,
    receivedAt := none, bankTxId := none, paymentReference := "ref1" }

def demoDepositState : DepositState :=
  { deposits := [(depositKey "deposit:d1", demoDeposit)],
    depositRefs := [(depositRefKey "ref1", "deposit:d1")] }

/-- Witness for C8: 500 received against 100 expected (400% deviation, far
beyond the 0.1% tolerance) still confirms, with the warning flag raised. -/
theorem confirmDeposit_never_rejects_witness :
    confirmDeposit demoDepositState 50 "ref1" 500 (some "tx1") =
      .ok (confirmedCopy demoDeposit 50 500 (some "tx1"),
        ⟨kvSet demoDepositState.deposits (depositKey demoDeposit.depositId)
          (confirmedCopy demoDeposit 50 500 (some "tx1")),
          demoDepositState.depositRefs⟩,
        decide (demoDeposit.amountExpected * (1 / 1000) <
          |(500 : ℚ) - demoDeposit.amountExpected|)) :=
  confirmDeposit_never_rejects demoDepositState 50 "ref1" 500 (some "tx1")
    "deposit:d1" demoDeposit (by with_unfolding_all rfl)
    (by with_unfolding_all rfl)

/-! ### Execution service and asynchronous driver -/

inductive ExecutionStatus
  | PENDING_APPROVAL
  | EXECUTING
  | COMPLETED
  | FAILED
  | EXPIRED
  deriving DecidableEq

/-- `ExecutionRecord` of `types/routing/execution`. -/
structure ExecutionRecord where
  executionId : String
  quoteId : String
  route : RouteResult
  status : ExecutionStatus
  approvalToken : Option String
  transactionHashes : List String
  currentStep : Option ℕ
  createdAt : ℤ
  completedAt : Option ℤ
  error : Option String
  fallbackRoute : Option RouteResult
  deriving DecidableEq

/-- The `exec:{executionId}` slice of the store. -/
abbrev ExecStore : Type := List (String × ExecutionRecord)

/-- `ExecutionService.getExecution`. -/
def getExecution (store : ExecStore) (executionId : String) :
    Option ExecutionRecord :=
  kvGet store (execKey executionId)

/-- `ExecutionService.saveExecution`. -/
def saveExecution (store : ExecStore) (record : ExecutionRecord) : ExecStore :=
  kvSet store (execKey record.executionId) record

/-- `ExecutionService.updateExecution`: fetch, merge the partial update, save.
Fails `NotFound` when the record is absent. -/
def updateExecution (store : ExecStore) (executionId : String)
    (updates : ExecutionRecord → ExecutionRecord) :
    Except String (ExecutionRecord × ExecStore) :=
  match getExecution store executionId with
  | none => .error "NotFound"
  | some existing =>
    let updated := updates existing
    .ok (updated, saveExecution store updated)

/-- `ExecutionService.completeExecution`. -/
def completeExecution (store : ExecStore) (executionId : String)
    (transactionHashes : List String) (now : ℤ) :
    Except String (ExecutionRecord × ExecStore) :=
  updateExecution store executionId fun e =>
    { e with
      status := ExecutionStatus.COMPLETED
      transactionHashes := transactionHashes
      completedAt := some now
      currentStep := none }

/-- `ExecutionService.failExecution`.  With `useFallback` and a present
`fallbackRoute` the record switches to the fallback (status stays EXECUTING,
`currentStep` 0, hashes cleared) — note the `fallbackRoute` field itself is
left in place.  Otherwise the record is marked FAILED. -/
def failExecution (store : ExecStore) (executionId : String) (error : String)
    (useFallback : Bool) (now : ℤ) :
    Option (ExecutionRecord × ExecStore) :=
  match getExecution store executionId with
  | none => none
  | some exec =>
    match useFallback, exec.fallbackRoute with
    | true, some fb =>
      let updated : ExecutionRecord :=
        { exec with
          route := fb
          status := ExecutionStatus.EXECUTING
          currentStep := some 0
          transactionHashes := []
          error := none }
      some (updated, saveExecution store updated)
    | _, _ =>
      let updated : ExecutionRecord :=
        { exec with
          status := ExecutionStatus.FAILED
          error := some error
          completedAt := some now }
      some (updated, saveExecution store updated)

/-- The step loop of `RoutingController.executeRouteAsync`: per step, write
`currentStep`, perform the step through the injected executor, append the
returned transaction hash (the local array initialised from the record
fetched at entry) and persist it.  Returns the store, the accumulated hashes
and the first thrown error, if any. -/
def stepLoop (stepExec : ℕ → RouteStep → Except String String)
    (executionId : String) :
    List RouteStep → ℕ → List String → ExecStore →
    ExecStore × List String × Option String
  | [], _, hashes, store => (store, hashes, none)
  | step :: rest, i, hashes, store =>
    match updateExecution store executionId
        (fun e => { e with currentStep := some i }) with
    | .error msg => (store, hashes, some msg)
    | .ok (_, store1) =>
      match stepExec i step with
      | .error msg => (store1, hashes, some msg)
      | .ok txHash =>
        let hashes1 := hashes ++ [txHash]
        match updateExecution store1 executionId
            (fun e => { e with transactionHashes := hashes1 }) with
        | .error msg => (store1, hashes1, some msg)
        | .ok (_, store2) => stepLoop stepExec executionId rest (i + 1) hashes1 store2

/-- `RoutingController.executeRouteAsync`, fueled to model the unbounded
recursion of the fallback retry (`fuel` bounds the number of attempts; the
source recurses without bound).  Returns the final store and the number of
fallback switches performed. -/
def executeRouteAsync (stepExec : ℕ → RouteStep → Except String String)
    (now : ℤ) : ℕ → ExecStore → String → ExecStore × ℕ
  | 0, store, _ => (store, 0)
  | fuel + 1, store, executionId =>
    match getExecution store executionId with
    | none => (store, 0)
    | some execution =>
      let r := stepLoop stepExec executionId execution.route.steps 0
        execution.transactionHashes store
      let attempt : Except String ExecStore :=
        match r.2.2 with
        | some msg => .error msg
        | none =>
          match completeExecution r.1 executionId r.2.1 now with
          | .error msg => .error msg
          | .ok (_, store2) => .ok store2
      match attempt with
      | .ok store2 => (store2, 0)
      | .error msg =>
        match getExecution r.1 executionId with
        | some exec2 =>
          match exec2.fallbackRoute with
          | some _ =>
            match failExecution r.1 executionId msg true now with
            | some (_, store2) =>
              let rec2 := executeRouteAsync stepExec now fuel store2 executionId
              (rec2.1, rec2.2 + 1)
            | none => (r.1, 0)
          | none =>
            match failExecution r.1 executionId msg false now with
            | some (_, store2) => (store2, 0)
            | none => (r.1, 0)
        | none =>
          match failExecution r.1 executionId msg false now with
          | some (_, store2) => (store2, 0)
          | none => (r.1, 0)

/-- The single step of the demo primary route. -/
def demoPrimaryStep : RouteStep :=
  { fromToken := "BRL", toToken := "EUR", venueId := "otc:p", chainId := 0,
    amountIn := 1000, amountOut := 900, feeBps := 0, estimatedDurationMs := 0 }

/-- The single step of the demo fallback route. -/
def demoFallbackStep : RouteStep :=
  { fromToken := "BRL", toToken := "EUR", venueId := "otc:f", chainId := 0,
    amountIn := 1000, amountOut := 880, feeBps := 0, estimatedDurationMs := 0 }

/-- A primary route whose single step always fails. -/
def demoFailRoute : RouteResult :=
  { steps := [demoPrimaryStep], totalIn := 1000, totalOut := 900,
    effectiveRate := 900 / 1000, totalFeesBps := 0, confidence := 1,
    timestamp := 0 }

/-- A fallback route (whose step will also fail in the C2 demonstration). -/
def demoFallbackRoute : RouteResult :=
  { steps := [demoFallbackStep], totalIn := 1000, totalOut := 880,
    effectiveRate := 880 / 1000, totalFeesBps := 0, confidence := 1,
    timestamp := 0 }

/-- An EXECUTING record with a non-null fallback route. -/
def demoExecRecord : ExecutionRecord :=
  { executionId := "e1", quoteId := "q1", route := demoFailRoute,
    status := ExecutionStatus.EXECUTING, approvalToken := none,
    transactionHashes := [], currentStep := some 0, createdAt := 0,
    completedAt := none, error := none,
    fallbackRoute := some demoFallbackRoute }

def demoExecStore : ExecStore := [(execKey "e1", demoExecRecord)]

/-- A step executor whose every step throws. -/
def demoFailStep (_ : ℕ) (_ : RouteStep) : Except String String :=
  .error "step failed"

/-- Claim C2 (refutation witness for the at-most-one-fallback property): with
an always-failing step executor and fuel 3, the driver performs three fallback
switches — `failExecution(_, _, true)` never clears `fallbackRoute`, so a
failure while already executing the fallback switches to it again (the record
stays EXECUTING) instead of terminating in FAILED. -/
theorem executeRouteAsync_fallback_reused :
    (executeRouteAsync demoFailStep 0 3 demoExecStore "e1").2 = 3 ∧
      (getExecution (executeRouteAsync demoFailStep 0 3 demoExecStore "e1").1
          "e1").map ExecutionRecord.status = some ExecutionStatus.EXECUTING ∧
      (failExecution
          [(execKey "e1", { demoExecRecord with route := demoFallbackRoute })]
          "e1" "step failed" true 0).map
          (fun p => (p.1.status, p.1.route)) =
        some (ExecutionStatus.EXECUTING, demoFallbackRoute) :=
  ⟨by with_unfolding_all rfl, by with_unfolding_all rfl,
    by with_unfolding_all rfl⟩

/-! ### Deposit webhook (`RoutingController.depositWebhook`) -/

/-- The full store state the webhook touches. -/
structure PipelineState where
  depositState : DepositState
  lifecycle : QuoteLifecycleState
  executions : ExecStore
  executionQuoteIndex : List (String × String)
  deriving DecidableEq

/-- `RoutingController.depositWebhook`, sequential model of one delivery.
Returns the new state, the `success` flag and whether the asynchronous
execution driver was started (`executeRouteAsync` fired).  Mirrors the source:
confirm the deposit, load the reserved quote, look up the execution via the
`execution:quote:` index, set its status to EXECUTING unconditionally — there
is no check of `deposit.status` — and start the driver. -/
def depositWebhook (s : PipelineState) (now : ℤ) (paymentReference : String)
    (amountReceived : ℚ) (bankTxId : Option String) :
    PipelineState × Bool × Bool :=
  match confirmDeposit s.depositState now paymentReference amountReceived
      bankTxId with
  | .error _ => (s, false, false)
  | .ok (deposit, dstate, _) =>
    let s1 : PipelineState := { s with depositState := dstate }
    match getReservedQuote s1.lifecycle now deposit.quoteId with
    | (none, lstate) => ({ s1 with lifecycle := lstate }, false, false)
    | (some _, lstate) =>
      let s2 : PipelineState := { s1 with lifecycle := lstate }
      match kvGet s2.executionQuoteIndex (executionQuoteKey deposit.quoteId) with
      | none => (s2, false, false)
      | some executionId =>
        match getExecution s2.executions executionId with
        | none => (s2, false, false)
        | some execution =>
          match updateExecution s2.executions execution.executionId
              (fun e => { e with status := ExecutionStatus.EXECUTING }) with
          | .error _ => (s2, false, false)
          | .ok (_, estore) => ({ s2 with executions := estore }, true, true)

/-- A one-step route that the demo executor completes successfully. -/
def demoOkStep (_ : ℕ) (_ : RouteStep) : Except String String := .ok "0xabc"

/-- The webhook demo execution: pending approval, one-step route, no
fallback (mirrors the repository's own webhook test fixture). -/
def demoWebhookExec : ExecutionRecord :=
  { executionId := "exec1", quoteId := "q1", route := demoFailRoute,
    status := ExecutionStatus.PENDING_APPROVAL, approvalToken := none,
    transactionHashes := [], currentStep := some 0, createdAt := 0,
    completedAt := none, error := none, fallbackRoute := none }

def demoWebhookLifecycle : QuoteLifecycleState :=
  { provisionalStore := [],
    reservedStore := [(reservedQuoteKey "q1", demoReserved)] }

def demoPipelineState : PipelineState :=
  { depositState := demoDepositState, lifecycle := demoWebhookLifecycle,
    executions := [(execKey "exec1", demoWebhookExec)],
    executionQuoteIndex := [(executionQuoteKey "q1", "exec1")] }

/-- State after the first webhook delivery. -/
def demoAfterFirstWebhook : PipelineState :=
  (depositWebhook demoPipelineState 0 "ref1" 100 none).1

/-- State after the driver then runs the route to completion. -/
def demoAfterDriver : PipelineState :=
  { demoAfterFirstWebhook with
    executions :=
      (executeRouteAsync demoOkStep 0 2 demoAfterFirstWebhook.executions
        "exec1").1 }

/-- Claim C1 (refutation witness for webhook idempotency): the first delivery
confirms the deposit and starts execution; after the driver completes the
route, a second identical delivery succeeds again, resets the COMPLETED
execution back to EXECUTING and starts the driver a second time — the code
never consults `deposit.status` before advancing execution state. -/
theorem depositWebhook_retriggers_execution :
    (depositWebhook demoPipelineState 0 "ref1" 100 none).2 = (true, true) ∧
      (getExecution demoAfterDriver.executions "exec1").map
          ExecutionRecord.status = some ExecutionStatus.COMPLETED ∧
      (depositWebhook demoAfterDriver 0 "ref1" 100 none).2 = (true, true) ∧
      (getExecution (depositWebhook demoAfterDriver 0 "ref1" 100 none).1.executions
          "exec1").map ExecutionRecord.status = some ExecutionStatus.EXECUTING :=
  ⟨by with_unfolding_all rfl, by with_unfolding_all rfl,
    by with_unfolding_all rfl, by with_unfolding_all rfl⟩

/-! ### PIX QR code (`DepositService.generatePixQrCode`) -/

/-- `DepositService.calculatePixCrc`: the source returns the constant
placeholder `"ABCD"` whatever its input (its own comment defers the proper
CRC16-CCITT to production). -/
def calculatePixCrc (_ : String) : String := "ABCD"

/-- The EMV payload the source's QR template emits before the CRC field value
(everything up to and including the `6304` CRC tag). -/
def pixPayloadBase : String :=
  "00020126580014BR.GOV.BCB.PIX0136mock-pix-key@example.com5204000053039865802BR5913MOCK MERCHANT6009SAO PAULO62070503***6304"

/-- `DepositService.generatePixQrCode`: the template literal appends
`calculatePixCrc("mock")` to the fixed payload; both arguments are ignored. -/
def generatePixQrCode (_ : String) (_ : ℚ) : String :=
  pixPayloadBase ++ calculatePixCrc "mock"

/-- Modelled from the spec: the domain-specified CRC16-CCITT (EMV-BR Code)
checksum — polynomial 0x1021, initial value 0xFFFF, big-endian bit order —
which the spec says the QR string's final four characters must encode.  The
16-bit exclusive-or is expressed with kernel-friendly arithmetic: bit `i` of
`a ^^^ b` is `(a/2^i + b/2^i) % 2`. -/
def xorBit (a b p : ℕ) : ℕ := ((a / p + b / p) % 2) * p

def xor16 (a b : ℕ) : ℕ :=
  xorBit a b 1 + xorBit a b 2 + xorBit a b 4 + xorBit a b 8 +
  xorBit a b 16 + xorBit a b 32 + xorBit a b 64 + xorBit a b 128 +
  xorBit a b 256 + xorBit a b 512 + xorBit a b 1024 + xorBit a b 2048 +
  xorBit a b 4096 + xorBit a b 8192 + xorBit a b 16384 + xorBit a b 32768

/-- One CRC16-CCITT shift round: shift left, xor the 0x1021 polynomial when
the top bit was set. -/
def crc16Round (c : ℕ) : ℕ :=
  if 32768 ≤ c then xor16 ((c - 32768) * 2) 4129 else c * 2

def crc16Byte (crc byte : ℕ) : ℕ :=
  crc16Round (crc16Round (crc16Round (crc16Round
    (crc16Round (crc16Round (crc16Round (crc16Round (xor16 crc (byte * 256)))))))))

def crc16ccitt (bytes : List ℕ) : ℕ := bytes.foldl crc16Byte 65535

def pixPayloadBytes : List ℕ := pixPayloadBase.data.map Char.toNat

/-- Uppercase hexadecimal digit. -/
def hexDigit (n : ℕ) : Char :=
  if n < 10 then Char.ofNat (48 + n) else Char.ofNat (55 + n)

/-- Four-character uppercase hexadecimal rendering of a 16-bit value, the EMV
CRC field format. -/
def toHex4 (n : ℕ) : String :=
  String.mk [hexDigit (n / 4096 % 16), hexDigit (n / 256 % 16),
    hexDigit (n / 16 % 16), hexDigit (n % 16)]

theorem crcFrom_split (c : ℕ) (l : List ℕ) (n : ℕ) :
    l.foldl crc16Byte c = (l.drop n).foldl crc16Byte ((l.take n).foldl crc16Byte c) := by
  rw [← List.foldl_append, List.take_append_drop]

set_option maxRecDepth 12000 in
theorem pixPayloadCrcValue : crc16ccitt pixPayloadBytes = 19540 := by
  rw [crc16ccitt, crcFrom_split _ _ 31]
  have h1 : (pixPayloadBytes.take 31).foldl crc16Byte 65535 = 29816 := by
    with_unfolding_all rfl
  rw [h1, crcFrom_split _ _ 31]
  have h2 : ((pixPayloadBytes.drop 31).take 31).foldl crc16Byte 29816 = 34086 := by
    with_unfolding_all rfl
  rw [h2, crcFrom_split _ _ 31]
  have h3 : (((pixPayloadBytes.drop 31).drop 31).take 31).foldl crc16Byte 34086 =
      2969 := by
    with_unfolding_all rfl
  rw [h3]
  with_unfolding_all rfl

/-- Claim C9 (refutation witness): the QR string attached to a PIX deposit
always ends in the placeholder `"ABCD"`, while the CRC16-CCITT checksum of the
preceding payload is 19540 = 0x4C54, i.e. the four-character CRC field would
have to read `"4C54"`.  Evaluated at the payment reference and amount of the
repository's own test flow. -/
theorem generatePixQrCode_crc_stub :
    generatePixQrCode "rtest-456-client-1" 10000 = pixPayloadBase ++ "ABCD" ∧
      toHex4 (crc16ccitt pixPayloadBytes) = "4C54" ∧
      ("4C54" : String) ≠ "ABCD" :=
  ⟨rfl, by rw [pixPayloadCrcValue]; with_unfolding_all rfl,
    by simp⟩

/-! ### Quote cache keys and the scoring lookup (claim C10) -/

/-- `RedisKey.otcQuote`. -/
def otcQuoteKey (f t venue : String) : String :=
  "otc:quotes:" ++ f ++ ":" ++ t ++ ":" ++ venue

/-- `RedisKey.routingEdge`. -/
def routingEdgeKey (chain f t venue : String) : String :=
  "routing:edge:" ++ chain ++ ":" ++ f ++ ":" ++ t ++ ":" ++ venue

/-- The key `OtcRoutingService.cacheQuote` writes a quote under. -/
def cacheQuoteKey (quote : OTCQuote) : String :=
  if quote.venueId.startsWith "dex:" then
    routingEdgeKey "solana" quote.fromToken quote.toToken quote.venueId
  else otcQuoteKey quote.fromToken quote.toToken quote.venueId

/-- `OtcRoutingService.cacheQuote` (store effect; TTL omitted). -/
def cacheQuote (store : List (String × OTCQuote)) (quote : OTCQuote) :
    List (String × OTCQuote) :=
  kvSet store (cacheQuoteKey quote) quote

/-- The key `RoutingController.getQuotesForRoute` reads a step's quote from:
`routing:edge:solana:…` for DEX steps but `quote:otc:…` for OTC steps. -/
def routeStepQuoteKey (step : RouteStep) : String :=
  if step.venueId.startsWith "dex:" then
    routingEdgeKey "solana" step.fromToken step.toToken step.venueId
  else "quote:otc:" ++ step.fromToken ++ ":" ++ step.toToken ++ ":" ++ step.venueId

/-- Loop body of `getQuotesForRoute`: skip steps with falsy token fields,
collect the parsed quote when the key is present. -/
def collectStepQuote (store : List (String × OTCQuote))
    (acc : List OTCQuote) (step : RouteStep) : List OTCQuote :=
  if step.fromToken = "" ∨ step.toToken = "" ∨ step.venueId = "" then acc
  else
    match kvGet store (routeStepQuoteKey step) with
    | some q => acc ++ [q]
    | none => acc

/-- `RoutingController.getQuotesForRoute`. -/
def getQuotesForRoute (store : List (String × OTCQuote)) (route : RouteResult) :
    List OTCQuote :=
  route.steps.foldl (collectStepQuote store) []

theorem head_data_append (s t : String) (c : Char)
    (h : s.data.head? = some c) : (s ++ t).data.head? = some c := by
  rw [String.data_append]
  cases hs : s.data with
  | nil => rw [hs] at h; simp at h
  | cons x xs => rw [hs] at h; simpa using h

theorem otcQuoteKey_head (f t venue : String) :
    (otcQuoteKey f t venue).data.head? = some 'o' := by
  unfold otcQuoteKey
  repeat apply head_data_append
  rfl

theorem routingEdgeKey_head (chain f t venue : String) :
    (routingEdgeKey chain f t venue).data.head? = some 'r' := by
  unfold routingEdgeKey
  repeat apply head_data_append
  rfl

/-- The scoring lookup key of an OTC step starts with `quote:otc:` while
`cacheQuote` keys start with `otc:quotes:` (OTC) or `routing:edge:` (DEX), so
the two can never coincide. -/
theorem routeStepQuoteKey_ne_cacheQuoteKey (step : RouteStep) (q : OTCQuote)
    (hstep : step.venueId.startsWith "dex:" = false) :
    routeStepQuoteKey step ≠ cacheQuoteKey q := by
  intro h
  have hl : (routeStepQuoteKey step).data.head? = some 'q' := by
    unfold routeStepQuoteKey
    rw [hstep]
    simp only [Bool.false_eq_true, if_false]
    repeat apply head_data_append
    rfl
  have hr : (cacheQuoteKey q).data.head? = some 'o' ∨
      (cacheQuoteKey q).data.head? = some 'r' := by
    unfold cacheQuoteKey
    by_cases hd : q.venueId.startsWith "dex:" = true
    · rw [hd]
      simp only [if_true]
      exact Or.inr (routingEdgeKey_head _ _ _ _)
    · rw [Bool.not_eq_true] at hd
      rw [hd]
      simp only [Bool.false_eq_true, if_false]
      exact Or.inl (otcQuoteKey_head _ _ _)
  rw [h] at hl
  rcases hr with hr | hr <;> rw [hr] at hl <;> simp at hl

theorem getQuotesForRoute_foldl_const (store : List (String × OTCQuote))
    (steps : List RouteStep) (acc : List OTCQuote)
    (h : ∀ s ∈ steps, kvGet store (routeStepQuoteKey s) = none) :
    steps.foldl (collectStepQuote store) acc = acc := by
  induction steps generalizing acc with
  | nil => rfl
  | cons s ss ih =>
    have hs : collectStepQuote store acc s = acc := by
      unfold collectStepQuote
      rw [h s (List.mem_cons_self s ss)]
      split <;> rfl
    simp only [List.foldl_cons, hs]
    exact ih acc fun s2 hs2 => h s2 (List.mem_cons_of_mem s hs2)

/-- Claim C10: over a store populated only by `cacheQuote`, the scoring
lookup finds nothing for a route whose steps are all OTC — the OTC write key
family (`otc:quotes:…`) and the OTC read key family (`quote:otc:…`) are
disjoint — so the settlement scorer receives the empty quote set and scores
with the defaults (counterparty risk 0.001, settlement days 0). -/
theorem getQuotesForRoute_misses_prefetched (sq : ℚ → ℚ)
    (store : List (String × OTCQuote)) (route : RouteResult)
    (hstore : ∀ p ∈ store, ∃ q : OTCQuote, p.1 = cacheQuoteKey q)
    (hroute : ∀ s ∈ route.steps, s.venueId.startsWith "dex:" = false) :
    getQuotesForRoute store route = [] ∧
      getAverageCounterpartyRisk (getQuotesForRoute store route) = 1 / 1000 ∧
      (getScoringMetadata sq route (getQuotesForRoute store route)).settlementDays
        = 0 := by
  have hempty : getQuotesForRoute store route = [] := by
    unfold getQuotesForRoute
    apply getQuotesForRoute_foldl_const
    intro s hs
    apply kvGet_none
    intro p hp
    obtain ⟨q, hq⟩ := hstore p hp
    rw [hq]
    exact fun heq => routeStepQuoteKey_ne_cacheQuoteKey s q (hroute s hs) heq.symm
  refine ⟨hempty, ?_, ?_⟩ <;> rw [hempty] <;> rfl

/-- An OTC quote cached by the prefetch path, matching the demo route's step
(venue `otc:p`, BRL→EUR) exactly. -/
def demoPrefetched : OTCQuote :=
  { venueId := "otc:p", fromToken := "BRL", toToken := "EUR",
    amountIn := 1000, amountOut := 900, maxAmountIn := none, feeBps := none,
    expiry := 100000, lastUpdated := 0, depositAddress := none,
    settlementMeta := some demoMeta }

/-- Witness for C10: even the quote for exactly the route's venue and pair,
written by `cacheQuote`, is invisible to the scoring lookup. -/
theorem getQuotesForRoute_misses_prefetched_witness :
    getQuotesForRoute (cacheQuote [] demoPrefetched) demoFailRoute = [] ∧
      getAverageCounterpartyRisk
          (getQuotesForRoute (cacheQuote [] demoPrefetched) demoFailRoute) =
        1 / 1000 ∧
      (getScoringMetadata demoSqrt demoFailRoute
          (getQuotesForRoute (cacheQuote [] demoPrefetched) demoFailRoute)).settlementDays
        = 0 :=
  getQuotesForRoute_misses_prefetched demoSqrt (cacheQuote [] demoPrefetched)
    demoFailRoute
    (by
      intro p hp
      have he : cacheQuote [] demoPrefetched =
          [(cacheQuoteKey demoPrefetched, demoPrefetched)] := by
        with_unfolding_all rfl
      rw [he] at hp
      rcases List.mem_cons.mp hp with rfl | hp2
      · exact ⟨demoPrefetched, rfl⟩
      · exact absurd hp2 (List.not_mem_nil p))
    (of_decide_eq_true (by with_unfolding_all rfl))

end Routing
